import Mathlib

/-!
A shallow embedding of the cppurcu library (a user-space RCU-style snapshot
container) and proofs about its specification claims.

Modelling conventions:
* A value handle (`std::shared_ptr<const T>`) is `Option Nat`: `none` is the
  empty/null handle, `some o` is a handle to the immutable object with
  identity `o`.  `handle.get()` is modelled by the handle itself (the raw
  pointer is `none` exactly when the handle is empty).
* 64-bit counters (`std::atomic<uint64_t>`) are `Nat` reduced modulo
  `W = 2 ^ 64`; `fetch_add(1)` becomes `(v + 1) % W` and the prefix
  decrement in `guard::~guard` becomes `(v + (W - 1)) % W`, which is where
  unsigned wraparound is load-bearing in the source.
* Memory orderings (acquire/release) are dropped: the embedding is a
  sequential/interleaving semantics over the fields the code reads and
  writes atomically.
-/

namespace Cppurcu

/-- Modulus of the 64-bit counters used throughout the library. -/
def W : Nat := 2 ^ 64

/-- State of `cppurcu::source<T>`: the authoritative value handle
(`satomic<const T> value_`) and version counter
(`std::atomic<uint64_t> version_{0}`), from src/cppurcu/source.h. -/
structure Src where
  value : Option Nat
  version : Nat
deriving Repr, DecidableEq

/-- Embeds `source<T>::update` (src/cppurcu/source.h lines 39-48):
read the current handle into `old`, store the new handle, `fetch_add(1)` the
version, and, if a reclaimer is attached, call `reclaimer_->push(old)`.
The result is the updated source state paired with the argument handed to
`push` (`none` in the second component when no reclaimer is attached). -/
def sourceUpdate (reclaim : Bool) (h : Option Nat) (s : Src) : Src × Option (Option Nat) :=
  let old := s.value
  (⟨h, (s.version + 1) % W⟩, if reclaim then some old else none)

/-- Embeds `source<T>::load(uint64_t value_version)`
(src/cppurcu/source.h lines 50-58): load the version; if it equals the
caller's version return `(value_version, nullptr)`, else load and return the
current handle with the current version. -/
def sourceLoadNewer (value_version : Nat) (s : Src) : Nat × Option Nat :=
  if value_version = s.version then (value_version, none)
  else (s.version, s.value)

/-- Embeds `source<T>::load()` (src/cppurcu/source.h lines 60-66): load the
version, then the handle. -/
def sourceLoadCur (s : Src) : Nat × Option Nat :=
  (s.version, s.value)

/-- Thread-local cache slot `tls_value_t<T>` from src/unnamed/part_011
(the guard.h variant with the `to_release` flag):
`{bool init; uint64_t version; const T *ptr; uint64_t ref_count;
  bool to_release; shared_ptr<const T> value;}`. -/
structure Slot where
  init : Bool
  version : Nat
  ptr : Option Nat
  ref_count : Nat
  to_release : Bool
  value : Option Nat
deriving Repr, DecidableEq

/-- The slot a brand-new thread sees: `std::unordered_map::operator[]`
default-initializes `tls_value_t` (documented in src/cppurcu/tls_instance.h):
bool false, integers 0, pointers null. -/
def defaultTls : Slot :=
  ⟨false, 0, none, 0, false, none⟩

/-- Embeds the `guard<T>` constructor from src/unnamed/part_011 lines 85-99:
post-increment `ref_count`; if its previous value was positive, return
without touching the slot; otherwise call `source.load(tls_value_.version)`
and, when the returned version differs, install the new
(version, raw pointer, handle) triple into the slot. -/
def guardCtor (src : Src) (t : Slot) : Slot :=
  if t.ref_count > 0 then
    { t with ref_count := t.ref_count + 1 }
  else
    let t := { t with ref_count := t.ref_count + 1 }
    let r := sourceLoadNewer t.version src
    if r.1 ≠ t.version then
      { t with version := r.1, ptr := r.2, value := r.2 }
    else t

/-- Embeds `guard<T>::~guard` from src/unnamed/part_011 lines 43-58 (for a
guard that was not moved from): pre-decrement `ref_count`; if still positive
return; if `to_release` is unset return; otherwise decrement the mirror
version (uint64 wrap: `(v + (W-1)) % W`), null the raw pointer, reset the
retained handle and clear `to_release`.  The reference-count decrement is
truncated Nat subtraction; it differs from the uint64 decrement only when
`ref_count = 0`, i.e. when a guard that does not exist is destroyed, which
no theorem below relies on. -/
def guardDtor (t : Slot) : Slot :=
  let t := { t with ref_count := t.ref_count - 1 }
  if t.ref_count > 0 then t
  else if t.to_release = false then t
  else
    { t with version := (t.version + (W - 1)) % W,
             ptr := none, value := none, to_release := false }

/-- Embeds `local<T>::load` (src/unnamed/part_010, the variant paired with
the part_011 guard): on first touch (`init == false`) install the triple
from `source_.load()`, then construct a guard on the slot.  The returned
slot state is the state the freshly constructed guard observes. -/
def localLoadSlot (src : Src) (t : Slot) : Slot :=
  let t :=
    if t.init = false then
      let r := sourceLoadCur src
      { t with init := true, version := r.1, ptr := r.2, value := r.2 }
    else t
  guardCtor src t

/-- Modelled from the spec: `local<T>::load_with_release` is not present
under src (only its caller `storage<T>::load_with_tls_release`,
src/unnamed/part_006 lines 105-108, is).  Per the spec
(read_and_schedule_release: "same as read(), but additionally set
release_scheduled = true on the slot") and the src guard constructor
`guard(tls_value, source, bool to_release)` (src/unnamed/part_011 lines
101-105), it performs an ordinary load and then sets the slot's
`to_release` flag. -/
def localLoadWithRelease (src : Src) (t : Slot) : Slot :=
  let t := localLoadSlot src t
  { t with to_release := true }

/-- Embeds `guard<T>::operator bool` (src/unnamed/part_011 lines 63-65):
`tls_value_.ptr != nullptr`.  The test reads only the cached raw pointer. -/
def guardBoolTest (t : Slot) : Bool :=
  t.ptr.isSome

/-- Events of one reader thread interacting with one cell, with publishes
(from any thread) interleaved: `load` is `storage::load()`, `loadR` is
`storage::load_with_tls_release()`, `unload` destroys the most recent live
guard, `publish h` is `storage::update(h)`. -/
inductive REv where
  | load : REv
  | loadR : REv
  | unload : REv
  | publish : Option Nat → REv
deriving Repr, DecidableEq

/-- Combined state of the source and the observing thread's slot. -/
structure RState where
  src : Src
  slot : Slot
deriving Repr, DecidableEq

/-- One step of the reader/publisher interleaving. -/
def rstep (s : RState) (e : REv) : RState :=
  match e with
  | .load => { s with slot := localLoadSlot s.src s.slot }
  | .loadR => { s with slot := localLoadWithRelease s.src s.slot }
  | .unload => { s with slot := guardDtor s.slot }
  | .publish h => { s with src := (sourceUpdate false h s.src).1 }

/-- Run a list of events. -/
def rrun (s : RState) (es : List REv) : RState :=
  es.foldl rstep s

/-- Number of publish events in a trace. -/
def pubCount (es : List REv) : Nat :=
  (es.filter fun e => match e with | .publish _ => true | _ => false).length

/-- Versions observed by the thread at each outermost load (a load that
finds `ref_count = 0`), i.e. across disjoint guard scopes. -/
def obsVersions (s : RState) : List REv → List Nat
  | [] => []
  | e :: es =>
    let s' := rstep s e
    match e with
    | .load =>
      if s.slot.ref_count = 0 then s'.slot.version :: obsVersions s' es
      else obsVersions s' es
    | _ => obsVersions s' es

/-- Thread-local cache slot `tls_value_t<T>` of src/cppurcu/guard.h lines
16-24 (the variant whose guard holds a reclaimer pointer): it has no
`to_release` flag:
`{bool init; uint64_t version; const T *ptr; uint64_t ref_count;
  shared_ptr<const T> value;}`. -/
structure SlotR where
  init : Bool
  version : Nat
  ptr : Option Nat
  ref_count : Nat
  value : Option Nat
deriving Repr, DecidableEq

/-- Embeds the `guard<T>` constructor of src/cppurcu/guard.h lines 54-69:
post-increment `ref_count`; when the previous value was 0, call
`source.load(tls_value_.version)` and, if a newer version came back, install
the new triple, first handing the replaced `tls_value_.value` to
`reclaimer_->push` when a reclaimer is attached.  The second component of
the result is the argument passed to `push` (`none` when no reclaimer is
attached or no reconcile happened, in which case the replaced handle is
simply overwritten, i.e. dropped by the reader). -/
def guardCtorR (reclaim : Bool) (src : Src) (t : SlotR) : SlotR × Option (Option Nat) :=
  if t.ref_count > 0 then
    ({ t with ref_count := t.ref_count + 1 }, none)
  else
    let t := { t with ref_count := t.ref_count + 1 }
    let r := sourceLoadNewer t.version src
    if r.1 ≠ t.version then
      ({ t with version := r.1, ptr := r.2, value := r.2 },
       if reclaim then some t.value else none)
    else (t, none)

/-- State of `cppurcu::reclaimer_thread` (src/unnamed/part_008) as far as
`push` is concerned: the duplicate-suppressed set `ptrs_` (kept as the list
of distinct inserted handles), the `notified_` flag, and a count of
`cond_.notify_one()` calls issued so far. -/
structure Reclaimer where
  ptrs : List Nat
  notified : Bool
  signals : Nat
deriving Repr, DecidableEq

/-- Embeds `reclaimer_thread::push` (src/unnamed/part_008 lines 60-75):
a null handle returns immediately; `ptrs_.insert` returning `second ==
false` (the handle is already present) returns without touching the flag or
the condition; after a successful insertion, if `notified_` is already set
return, else set it and `notify_one`. -/
def rtPush (r : Reclaimer) (h : Option Nat) : Reclaimer :=
  match h with
  | none => r
  | some o =>
    if o ∈ r.ptrs then r
    else
      let r := { r with ptrs := r.ptrs ++ [o] }
      if r.notified then r
      else { r with notified := true, signals := r.signals + 1 }

/-- Embeds the scan of `reclaimer_thread::worker_loop` (src/unnamed/part_008
lines 108-114): under the lock, walk `ptrs_`; entries with
`use_count() > 1` stay; the rest (the reclaimer is their sole owner) are
moved to a local buffer and erased.  `use o` gives the current reference
count of handle `o` (including the reclaimer's own reference).  Returns the
remaining set and the buffer whose clearing destroys the objects. -/
def rtScan (use : Nat → Nat) (r : Reclaimer) : Reclaimer × List Nat :=
  ({ r with ptrs := r.ptrs.filter fun o => use o > 1 },
   r.ptrs.filter fun o => ¬ use o > 1)

/-- Local state of one publisher thread executing `source<T>::update`
(src/cppurcu/source.h lines 39-48): the handle it publishes, a program
counter over the body's four shared-memory actions, and the `old` local
into which it loads the superseded handle. -/
structure PThread where
  arg : Option Nat
  pc : Nat
  old : Option Nat
deriving Repr, DecidableEq

/-- Shared state for concurrent publishers against one source with a
reclaimer attached: the source's value and version, the sequence of
arguments handed to `reclaimer_->push`, and the publisher threads. -/
structure PState where
  value : Option Nat
  version : Nat
  retired : List (Option Nat)
  threads : List PThread
deriving Repr, DecidableEq

/-- One atomic step of publisher `t`, following the body of
`source<T>::update` action by action (the update takes no lock, so steps of
different publishers may interleave freely):
pc 0: `auto old = value_.load(...)`;
pc 1: `value_.store(value, ...)`;
pc 2: `version_.fetch_add(1, ...)`;
pc 3: `reclaimer_->push(old)`.
A finished or unknown thread index leaves the state unchanged. -/
def pstep (s : PState) (t : Nat) : PState :=
  match s.threads[t]? with
  | none => s
  | some th =>
    match th.pc with
    | 0 => { s with threads := s.threads.set t { th with old := s.value, pc := 1 } }
    | 1 => { s with value := th.arg, threads := s.threads.set t { th with pc := 2 } }
    | 2 => { s with version := (s.version + 1) % W,
                    threads := s.threads.set t { th with pc := 3 } }
    | 3 => { s with retired := s.retired ++ [th.old],
                    threads := s.threads.set t { th with pc := 4 } }
    | _ => s

/-- Run a schedule (a sequence of thread indices, each performing its next
action). -/
def prun (s : PState) (sched : List Nat) : PState :=
  sched.foldl pstep s

/-- Initial state: the source holds `v0` at version `vv`, and one publisher
thread per argument stands at the start of `update`. -/
def pubInit (v0 : Option Nat) (vv : Nat) (args : List (Option Nat)) : PState :=
  ⟨v0, vv, [], args.map fun a => ⟨a, 0, none⟩⟩

/-- Number of publisher threads that have already executed their
`fetch_add` on the version counter. -/
def pubDone (ths : List PThread) : Nat :=
  ths.countP fun th => 3 ≤ th.pc

/-- Invariant tying the source's current value to the publishers: either
some thread has already stored its argument (and the last such store is the
current value), or no thread has reached its store yet and the value is
still the initial one. -/
def storedInv (v0 : Option Nat) (s : PState) : Prop :=
  (∃ (j : Nat) (th : PThread),
    s.threads[j]? = some th ∧ 2 ≤ th.pc ∧ s.value = th.arg) ∨
  (s.value = v0 ∧ ∀ th ∈ s.threads, th.pc ≤ 1)

/-- Construction and destruction events of the guards placed in a
`guard_pack`'s inline buffer, indexed by slot position. -/
inductive PEv where
  | ctor : Nat → PEv
  | dtor : Nat → PEv
deriving Repr, DecidableEq

/-- Embeds `guard_pack::construct_guards` (src/unnamed/part_012 lines
420-428): move-construct the guard at index `i` by placement new, then
recurse on the remaining pack.  `fail` marks the indices whose move
construction fails, modelling the exception the surrounding documentation
speaks of (in the code itself `guard<T>`'s move constructor is `noexcept`,
so `fail` is constantly false there).  The body contains no try/catch, so a
failure stops construction with no destruction events.  Returns the event
trace and whether construction completed. -/
def constructGuards (fail : Nat → Bool) : Nat → Nat → List PEv × Bool
  | _, 0 => ([], true)
  | i, k + 1 =>
    if fail i then ([], false)
    else
      let r := constructGuards fail (i + 1) k
      (PEv.ctor i :: r.1, r.2)

/-- Embeds `guard_pack::destroy_guards` (src/unnamed/part_012 lines
440-449), as invoked from `~guard_pack` with `I = sizeof...(Ts) - 1`:
destroy the guard at index `I`, then recurse downward. -/
def destroyGuards : Nat → List PEv
  | 0 => [PEv.dtor 0]
  | i + 1 => PEv.dtor (i + 1) :: destroyGuards i

/-- Value of `tls_instance::self_allocator_` (src/cppurcu/tls_instance.h
line 68, `std::atomic<uint64_t>` starting at 0) after `n` constructions
have each performed `fetch_add(1)`. -/
def counterAfter : Nat → Nat
  | 0 => 0
  | n + 1 => (counterAfter n + 1) % W

/-- Slot key of the `n`-th constructed `tls_instance` (1-based):
`self_ = self_allocator_.fetch_add(1, std::memory_order_relaxed) + 1` on
`uint64_t` (src/cppurcu/tls_instance.h line 69). -/
def selfKey (n : Nat) : Nat :=
  (counterAfter (n - 1) + 1) % W

/-- Lookup in a thread's slot map keyed by `self_`
(src/cppurcu/tls_instance.h lines 62-66): a key that was never written
yields the default-initialized `tls_value_t` (`operator[]` default
construction, documented at the top of tls_instance.h). -/
def tlsRef (m : List (Nat × Slot)) (k : Nat) : Slot :=
  ((m.find? fun p => p.1 == k).map Prod.snd).getD defaultTls

end Cppurcu

namespace Cppurcu

/-- CLAIM C6: `source::load(v)` loads the current version; if it equals `v`
it returns `(v, empty handle)` meaning the caller already has the latest;
otherwise it returns the current version paired with the current handle.
(Acquire orderings are dropped by the sequential embedding.) -/
theorem c6_load_if_newer (v : Nat) (s : Src) :
    (v = s.version → sourceLoadNewer v s = (v, none)) ∧
    (v ≠ s.version → sourceLoadNewer v s = (s.version, s.value)) := by
  constructor
  · intro h
    simp [sourceLoadNewer, h]
  · intro h
    simp [sourceLoadNewer, h]

/-- Witness for C6: at version 3 with current version 3 the load returns the
empty handle, and at version 2 with current version 3 it returns the current
pair. -/
theorem c6_load_if_newer_witness :
    sourceLoadNewer 3 ⟨some 7, 3⟩ = (3, none) ∧
    sourceLoadNewer 2 ⟨some 7, 3⟩ = (3, some 7) := by
  refine ⟨(c6_load_if_newer 3 ⟨some 7, 3⟩).1 rfl, ?_⟩
  exact (c6_load_if_newer 2 ⟨some 7, 3⟩).2 (by decide)

/-- CLAIM C4: on publish the superseded handle is handed to the reclaimer
when one is attached (and no reclaim work happens for an empty old handle,
since `push` returns immediately on null); on the reader reconcile path the
replaced retained handle is routed to the reclaimer if one is attached and
is dropped (overwritten) by the reader otherwise. -/
theorem c4_retirement_routing :
    (∀ h s, (sourceUpdate true h s).2 = some s.value) ∧
    (∀ h s, (sourceUpdate false h s).2 = none) ∧
    (∀ r, rtPush r none = r) ∧
    (∀ src t, t.ref_count = 0 → src.version ≠ t.version →
      (guardCtorR true src t).2 = some t.value ∧
      (guardCtorR true src t).1.value = src.value) ∧
    (∀ src t, t.ref_count = 0 → src.version ≠ t.version →
      (guardCtorR false src t).2 = none ∧
      (guardCtorR false src t).1.value = src.value) := by
  refine ⟨fun h s => rfl, fun h s => rfl, fun r => rfl, ?_, ?_⟩ <;>
  · intro src t h0 hv
    simp [guardCtorR, sourceLoadNewer, h0, Ne.symm hv, hv]

/-- Witness for C4: concrete publishes and reconciles with and without an
attached reclaimer. -/
theorem c4_retirement_routing_witness :
    (sourceUpdate true (some 2) ⟨some 1, 0⟩).2 = some (some 1) ∧
    (sourceUpdate false (some 2) ⟨some 1, 0⟩).2 = none ∧
    rtPush ⟨[], false, 0⟩ none = ⟨[], false, 0⟩ ∧
    (guardCtorR true ⟨some 2, 1⟩ ⟨true, 0, some 1, 0, some 1⟩).2 = some (some 1) ∧
    (guardCtorR false ⟨some 2, 1⟩ ⟨true, 0, some 1, 0, some 1⟩).2 = none :=
  ⟨c4_retirement_routing.1 (some 2) ⟨some 1, 0⟩,
   c4_retirement_routing.2.1 (some 2) ⟨some 1, 0⟩,
   c4_retirement_routing.2.2.1 ⟨[], false, 0⟩,
   (c4_retirement_routing.2.2.2.1 ⟨some 2, 1⟩ ⟨true, 0, some 1, 0, some 1⟩ rfl
      (by decide)).1,
   (c4_retirement_routing.2.2.2.2 ⟨some 2, 1⟩ ⟨true, 0, some 1, 0, some 1⟩ rfl
      (by decide)).1⟩

/-- CLAIM C8 (as stated) is false: a successful insertion does NOT always
signal the condition variable.  Concretely, after `push(1)` on a fresh
reclaimer (which sets `notified_` and signals once), `push(2)` inserts
successfully — the set becomes `[1, 2]` — but issues no signal, because
`push` returns early when `notified_` is already set
(src/unnamed/part_008 lines 70-71). -/
theorem c8_counterexample :
    (rtPush (rtPush ⟨[], false, 0⟩ (some 1)) (some 2)).ptrs = [1, 2] ∧
    (rtPush (rtPush ⟨[], false, 0⟩ (some 1)) (some 2)).signals =
      (rtPush ⟨[], false, 0⟩ (some 1)).signals := by
  decide

/-- CLAIM C8 (amended): push with a null handle is a no-op; inserting a
handle already present is collapsed (no state change, no notification); a
successful insertion sets the notified flag, and signals the condition
variable exactly when the flag was not already set; during a scan a handle
is erased (into the buffer whose clearing destroys it) exactly when the
reclaimer is its sole owner (reference count 1), and all other handles
remain queued. -/
theorem c8_reclaimer_queue :
    (∀ r, rtPush r none = r) ∧
    (∀ r o, o ∈ r.ptrs → rtPush r (some o) = r) ∧
    (∀ r o, o ∉ r.ptrs → r.notified = false →
      rtPush r (some o) = ⟨r.ptrs ++ [o], true, r.signals + 1⟩) ∧
    (∀ r o, o ∉ r.ptrs → r.notified = true →
      rtPush r (some o) = ⟨r.ptrs ++ [o], true, r.signals⟩) ∧
    (∀ use r, (∀ o ∈ r.ptrs, 1 ≤ use o) →
      (rtScan use r).2 = r.ptrs.filter (fun o => use o = 1) ∧
      (rtScan use r).1.ptrs = r.ptrs.filter (fun o => use o ≠ 1)) := by
  refine ⟨fun r => rfl, ?_, ?_, ?_, ?_⟩
  · intro r o hmem
    simp [rtPush, hmem]
  · intro r o hmem hn
    simp [rtPush, hmem, hn]
  · intro r o hmem hn
    simp [rtPush, hmem, hn]
  · intro r use hcnt
    constructor
    · apply List.filter_congr
      intro o ho
      have h1 := hcnt o ho
      simp only [decide_eq_decide]
      omega
    · apply List.filter_congr
      intro o ho
      have h1 := hcnt o ho
      simp only [decide_eq_decide]
      omega

/-- A guard constructed on a slot that already has a live guard only
increments the reference count; the reconcile code is skipped. -/
theorem guardCtor_live (src : Src) (t : Slot) (h : 0 < t.ref_count) :
    guardCtor src t = { t with ref_count := t.ref_count + 1 } := by
  simp [guardCtor, h]

/-- The guard destructor always decrements the reference count by one. -/
theorem guardDtor_ref (t : Slot) : (guardDtor t).ref_count = t.ref_count - 1 := by
  unfold guardDtor
  dsimp only
  split
  · rfl
  · split <;> rfl

/-- Destroying a guard that is not the outermost one only decrements the
reference count. -/
theorem guardDtor_live (t : Slot) (h : 2 ≤ t.ref_count) :
    guardDtor t = { t with ref_count := t.ref_count - 1 } := by
  have h1 : 0 < t.ref_count - 1 := by omega
  simp [guardDtor, h1]

/-- A load on an initialized slot that already has a live guard only
increments the reference count. -/
theorem localLoad_live (src : Src) (t : Slot) (hinit : t.init = true)
    (h : 0 < t.ref_count) :
    localLoadSlot src t = { t with ref_count := t.ref_count + 1 } := by
  have he : localLoadSlot src t = guardCtor src t := by
    rw [localLoadSlot]
    simp [hinit]
  rw [he]
  exact guardCtor_live src t h

/-- Any single step taken while a guard stays live (the slot's reference
count is at least one before and after) leaves the slot's cached pointer,
mirror version and retained handle unchanged. -/
theorem rstep_stable (s : RState) (e : REv)
    (hinit : s.slot.init = true) (h1 : 1 ≤ s.slot.ref_count)
    (h2 : 1 ≤ (rstep s e).slot.ref_count) :
    (rstep s e).slot.ptr = s.slot.ptr ∧
    (rstep s e).slot.version = s.slot.version ∧
    (rstep s e).slot.value = s.slot.value ∧
    (rstep s e).slot.init = true := by
  cases e with
  | load =>
    simp [rstep, localLoad_live s.src s.slot hinit h1, hinit]
  | loadR =>
    simp [rstep, localLoadWithRelease, localLoad_live s.src s.slot hinit h1, hinit]
  | unload =>
    have hr : 2 ≤ s.slot.ref_count := by
      have h3 := h2
      simp only [rstep, guardDtor_ref] at h3
      omega
    simp [rstep, guardDtor_live s.slot hr, hinit]
  | publish h =>
    simp [rstep, hinit]

/-- Running a trace during which the slot's reference count never drops to
zero leaves the slot's cached pointer, mirror version and retained handle
unchanged. -/
theorem rrun_stable (es : List REv) : ∀ st : RState, st.slot.init = true →
    (∀ k, k ≤ es.length → 1 ≤ (rrun st (es.take k)).slot.ref_count) →
    (rrun st es).slot.ptr = st.slot.ptr ∧
    (rrun st es).slot.version = st.slot.version ∧
    (rrun st es).slot.value = st.slot.value ∧
    (rrun st es).slot.init = true := by
  induction es with
  | nil =>
    intro st h _
    exact ⟨rfl, rfl, rfl, h⟩
  | cons e es ih =>
    intro st hinit hlive
    have h0 : 1 ≤ st.slot.ref_count := by
      have := hlive 0 (Nat.zero_le _)
      simpa [rrun] using this
    have h1 : 1 ≤ (rstep st e).slot.ref_count := by
      have := hlive 1 (by simp)
      exact this
    have hs := rstep_stable st e hinit h0 h1
    have htail : ∀ k, k ≤ es.length →
        1 ≤ (rrun (rstep st e) (es.take k)).slot.ref_count := by
      intro k hk
      have := hlive (k + 1) (by simpa using Nat.succ_le_succ hk)
      simpa [rrun, List.take_succ_cons] using this
    have hrest := ih (rstep st e) hs.2.2.2 htail
    refine ⟨?_, ?_, ?_, hrest.2.2.2⟩
    · rw [show rrun st (e :: es) = rrun (rstep st e) es from rfl, hrest.1, hs.1]
    · rw [show rrun st (e :: es) = rrun (rstep st e) es from rfl, hrest.2.1, hs.2.1]
    · rw [show rrun st (e :: es) = rrun (rstep st e) es from rfl, hrest.2.2.1, hs.2.2.1]

/-- CLAIM C1: version reconciliation on a thread-local slot is performed
only when the guard constructor takes the slot's reference count from 0 to
1 — a constructor that finds a live guard only increments the count — and,
starting from any state in which a guard is live (reference count at least
one, slot initialized) and along any trace of further loads, unloads and
publishes during which some guard stays live, the slot's cached raw pointer
(which every guard constructed in the region returns) stays equal to the
outermost guard's pointer. -/
theorem c1_snapshot_isolation :
    (∀ (src : Src) (t : Slot), 0 < t.ref_count →
      guardCtor src t = { t with ref_count := t.ref_count + 1 }) ∧
    (∀ (st : RState) (es : List REv), st.slot.init = true →
      (∀ k, k ≤ es.length → 1 ≤ (rrun st (es.take k)).slot.ref_count) →
      ∀ k, k ≤ es.length → (rrun st (es.take k)).slot.ptr = st.slot.ptr) := by
  refine ⟨guardCtor_live, ?_⟩
  intro st es hinit hlive k hk
  have hpre : ∀ j, j ≤ (es.take k).length →
      1 ≤ (rrun st ((es.take k).take j)).slot.ref_count := by
    intro j hj
    rw [List.take_take]
    have hjk : j ≤ k := le_trans hj (by simp)
    rw [min_eq_left hjk]
    exact hlive j (le_trans hjk hk)
  exact (rrun_stable (es.take k) st hinit hpre).1

/-- Witness for C1: with a guard live on a slot caching pointer 7, a
publish of 9 followed by a nested load and its unload leaves every
intermediate pointer equal to 7. -/
theorem c1_snapshot_isolation_witness :
    guardCtor ⟨some 9, 2⟩ ⟨true, 1, some 7, 1, false, some 7⟩ =
      ⟨true, 1, some 7, 2, false, some 7⟩ ∧
    (rrun ⟨⟨some 7, 1⟩, ⟨true, 1, some 7, 1, false, some 7⟩⟩
      ([REv.publish (some 9), REv.load, REv.unload].take 2)).slot.ptr = some 7 :=
  ⟨c1_snapshot_isolation.1 ⟨some 9, 2⟩ ⟨true, 1, some 7, 1, false, some 7⟩ (by decide),
   c1_snapshot_isolation.2 ⟨⟨some 7, 1⟩, ⟨true, 1, some 7, 1, false, some 7⟩⟩
     [REv.publish (some 9), REv.load, REv.unload] rfl
     (by
        intro k hk
        have hk3 : k ≤ 3 := by simpa using hk
        interval_cases k <;> decide) 2 (by decide)⟩

/-- CLAIM C7: a cell constructed with an empty handle yields guards whose
boolean test (which only reads the cached raw pointer, so no dereference
and no undefined behavior) is false; a subsequent non-empty publish of any
value `a` is observable through a new guard obtained in a fresh scope (the
guard tests true and caches value `a`); a later empty publish again yields
boolean-false guards in a fresh scope. -/
theorem c7_null_roundtrip (a : Nat) :
    guardBoolTest (rrun ⟨⟨none, 0⟩, defaultTls⟩ [REv.load]).slot = false ∧
    guardBoolTest (rrun ⟨⟨none, 0⟩, defaultTls⟩
      [REv.load, REv.unload, REv.publish (some a), REv.load]).slot = true ∧
    (rrun ⟨⟨none, 0⟩, defaultTls⟩
      [REv.load, REv.unload, REv.publish (some a), REv.load]).slot.ptr = some a ∧
    (rrun ⟨⟨none, 0⟩, defaultTls⟩
      [REv.load, REv.unload, REv.publish (some a), REv.load]).slot.value = some a ∧
    guardBoolTest (rrun ⟨⟨none, 0⟩, defaultTls⟩
      [REv.load, REv.unload, REv.publish (some a), REv.load, REv.unload,
       REv.publish none, REv.load]).slot = false := by
  refine ⟨?_, ?_, ?_, ?_, ?_⟩ <;>
    simp [rrun, rstep, localLoadSlot, guardCtor, guardDtor, sourceUpdate,
      sourceLoadCur, sourceLoadNewer, defaultTls, guardBoolTest, W]

/-- Witness for C7: the null round-trip at the concrete published value
42. -/
theorem c7_null_roundtrip_witness :
    guardBoolTest (rrun ⟨⟨none, 0⟩, defaultTls⟩ [REv.load]).slot = false ∧
    guardBoolTest (rrun ⟨⟨none, 0⟩, defaultTls⟩
      [REv.load, REv.unload, REv.publish (some 42), REv.load]).slot = true ∧
    (rrun ⟨⟨none, 0⟩, defaultTls⟩
      [REv.load, REv.unload, REv.publish (some 42), REv.load]).slot.ptr = some 42 ∧
    (rrun ⟨⟨none, 0⟩, defaultTls⟩
      [REv.load, REv.unload, REv.publish (some 42), REv.load]).slot.value = some 42 ∧
    guardBoolTest (rrun ⟨⟨none, 0⟩, defaultTls⟩
      [REv.load, REv.unload, REv.publish (some 42), REv.load, REv.unload,
       REv.publish none, REv.load]).slot = false :=
  c7_null_roundtrip 42

/-- Running a block of `k + 1` publishes of handle `h` only moves the
source: the value becomes `h` and the version advances by `k + 1` modulo
`W`. -/
theorem rrun_replicate_publish (k : Nat) (h : Option Nat) : ∀ st : RState,
    rrun st (List.replicate (k + 1) (REv.publish h)) =
      ⟨⟨h, (st.src.version + (k + 1)) % W⟩, st.slot⟩ := by
  induction k with
  | zero =>
    intro st
    simp [rrun, List.replicate, rstep, sourceUpdate]
  | succ k ih =>
    intro st
    rw [show (k + 1 + 1) = (k + 1) + 1 from rfl, List.replicate_succ]
    rw [show rrun st (REv.publish h :: List.replicate (k + 1) (REv.publish h)) =
      rrun (rstep st (REv.publish h)) (List.replicate (k + 1) (REv.publish h)) from rfl]
    rw [ih]
    simp [rstep, sourceUpdate, Nat.mod_add_mod]
    ring_nf

/-- CLAIM C3 (amended): when a guard destructs as the outermost guard on
its slot (reference count 1 before the decrement) with the release flag
set, the retained handle is dropped, the raw pointer nulled, the release
flag cleared and the mirror version decremented by one modulo `2^64`; a
subsequent load against any source state whose version differs from that
decremented mirror — which holds unless the number of publishes between
release and reload is congruent to `2^64 - 1` modulo `2^64` — performs a
full reconcile and observes the then-current source version and value.  If
the post-decrement reference count is still positive the slot is left
untouched apart from the decrement. -/
theorem c3_scheduled_release :
    (∀ t : Slot, t.ref_count = 1 → t.to_release = true →
      guardDtor t = ⟨t.init, (t.version + (W - 1)) % W, none, 0, false, none⟩) ∧
    (∀ (t : Slot) (src : Src), t.ref_count = 1 → t.to_release = true →
      t.init = true → src.version ≠ (t.version + (W - 1)) % W →
      (localLoadSlot src (guardDtor t)).version = src.version ∧
      (localLoadSlot src (guardDtor t)).ptr = src.value ∧
      (localLoadSlot src (guardDtor t)).value = src.value) ∧
    (∀ t : Slot, 2 ≤ t.ref_count →
      guardDtor t = { t with ref_count := t.ref_count - 1 }) := by
  have hdtor : ∀ t : Slot, t.ref_count = 1 → t.to_release = true →
      guardDtor t = ⟨t.init, (t.version + (W - 1)) % W, none, 0, false, none⟩ := by
    intro t h1 hr
    simp [guardDtor, h1, hr]
  refine ⟨hdtor, ?_, guardDtor_live⟩
  intro t src h1 hr hinit hv
  rw [hdtor t h1 hr]
  have hne : (t.version + (W - 1)) % W ≠ src.version := Ne.symm hv
  simp [localLoadSlot, hinit, guardCtor, sourceLoadNewer, hne, Ne.symm hne]

/-- Witness for C3 (amended): a slot at version 5 with a live scheduled
release guard, destructed and then reloaded against a source at version 7. -/
theorem c3_scheduled_release_witness :
    guardDtor ⟨true, 5, some 3, 1, true, some 3⟩ =
      ⟨true, (5 + (W - 1)) % W, none, 0, false, none⟩ ∧
    (localLoadSlot ⟨some 9, 7⟩ (guardDtor ⟨true, 5, some 3, 1, true, some 3⟩)).ptr =
      some 9 ∧
    guardDtor ⟨true, 5, some 3, 2, true, some 3⟩ = ⟨true, 5, some 3, 1, true, some 3⟩ :=
  ⟨c3_scheduled_release.1 ⟨true, 5, some 3, 1, true, some 3⟩ rfl rfl,
   (c3_scheduled_release.2.1 ⟨true, 5, some 3, 1, true, some 3⟩ ⟨some 9, 7⟩ rfl rfl rfl
      (by norm_num [W])).2.1,
   c3_scheduled_release.2.2 ⟨true, 5, some 3, 2, true, some 3⟩ (by norm_num)⟩

/-- CLAIM C3 as stated is false in the wraparound case: starting from a
fresh cell holding handle 0, after one publish of handle 1, a
load_with_tls_release and its outermost destruct (which decrements the
64-bit mirror version from 1 to 0), a block of `2^64 - 1` further publishes
of handle 2 brings the source version back to 0 = the decremented mirror,
so the next load does NOT reconcile: the guard is empty (`ptr = none`)
although the then-current source value is handle 2. -/
theorem c3_counterexample :
    (rrun ⟨⟨some 0, 0⟩, defaultTls⟩
      ([REv.publish (some 1), REv.loadR, REv.unload] ++
        List.replicate (W - 1) (REv.publish (some 2)) ++ [REv.load])).slot.ptr = none ∧
    (rrun ⟨⟨some 0, 0⟩, defaultTls⟩
      ([REv.publish (some 1), REv.loadR, REv.unload] ++
        List.replicate (W - 1) (REv.publish (some 2)) ++ [REv.load])).src.value =
      some 2 := by
  have h1 : rrun ⟨⟨some 0, 0⟩, defaultTls⟩ [REv.publish (some 1), REv.loadR, REv.unload] =
      ⟨⟨some 1, 1⟩, ⟨true, 0, none, 0, false, none⟩⟩ := by
    simp [rrun, rstep, localLoadSlot, localLoadWithRelease, guardCtor, guardDtor,
      sourceUpdate, sourceLoadCur, sourceLoadNewer, defaultTls, W]
  have h2 : W - 1 = (W - 2) + 1 := by norm_num [W]
  have h3 : rrun (⟨⟨some 1, 1⟩, ⟨true, 0, none, 0, false, none⟩⟩ : RState)
      (List.replicate (W - 1) (REv.publish (some 2))) =
      ⟨⟨some 2, 0⟩, ⟨true, 0, none, 0, false, none⟩⟩ := by
    rw [h2, rrun_replicate_publish]
    have h4 : (1 + ((W - 2) + 1)) % W = 0 := by
      have h5 : 1 + ((W - 2) + 1) = W := by norm_num [W]
      rw [h5, Nat.mod_self]
    simp [h4]
  have hsplit : rrun ⟨⟨some 0, 0⟩, defaultTls⟩
      ([REv.publish (some 1), REv.loadR, REv.unload] ++
        List.replicate (W - 1) (REv.publish (some 2)) ++ [REv.load]) =
      rrun (rrun (rrun ⟨⟨some 0, 0⟩, defaultTls⟩
        [REv.publish (some 1), REv.loadR, REv.unload])
        (List.replicate (W - 1) (REv.publish (some 2)))) [REv.load] := by
    rw [rrun, rrun, rrun, rrun, List.foldl_append, List.foldl_append]
  rw [hsplit, h1, h3]
  simp [rrun, rstep, localLoadSlot, guardCtor, sourceLoadNewer]

/-- The guard constructor never touches the release flag. -/
theorem guardCtor_release (src : Src) (t : Slot) :
    (guardCtor src t).to_release = t.to_release := by
  unfold guardCtor
  dsimp only
  split
  · rfl
  · split <;> rfl

/-- A plain load never touches the release flag. -/
theorem localLoadSlot_release (src : Src) (t : Slot) :
    (localLoadSlot src t).to_release = t.to_release := by
  unfold localLoadSlot
  dsimp only
  split <;> simp [guardCtor_release]

/-- The guard destructor keeps the release flag clear when it was clear. -/
theorem guardDtor_release (t : Slot) (h : t.to_release = false) :
    (guardDtor t).to_release = false := by
  unfold guardDtor
  dsimp only
  split
  · exact h
  · simp [h]

/-- An outermost load (reference count zero) always leaves the slot's
mirror version equal to the source's current version. -/
theorem localLoad_outermost_version (src : Src) (t : Slot) (h : t.ref_count = 0) :
    (localLoadSlot src t).version = src.version := by
  unfold localLoadSlot guardCtor sourceLoadNewer sourceLoadCur
  by_cases hi : t.init = false
  · simp [hi, h]
  · simp [hi, h]
    by_cases hv : t.version = src.version
    · simp [hv]
    · simp [hv, Ne.symm hv]

/-- A load event contributes nothing to the publish count. -/
theorem pubCount_cons_load (es : List REv) :
    pubCount (REv.load :: es) = pubCount es := by
  simp [pubCount, List.filter_cons]

/-- An unload event contributes nothing to the publish count. -/
theorem pubCount_cons_unload (es : List REv) :
    pubCount (REv.unload :: es) = pubCount es := by
  simp [pubCount, List.filter_cons]

/-- A publish event contributes one to the publish count. -/
theorem pubCount_cons_publish (h : Option Nat) (es : List REv) :
    pubCount (REv.publish h :: es) = pubCount es + 1 := by
  simp [pubCount, List.filter_cons]

/-- Along any trace of loads, unloads and publishes (no scheduled release)
whose total publish count keeps the 64-bit version counter from wrapping,
the versions observed at outermost loads are all at least the starting
source version and form a non-decreasing sequence. -/
theorem obs_bounded_chain (es : List REv) : ∀ st : RState,
    st.slot.to_release = false → REv.loadR ∉ es →
    st.src.version + pubCount es < W →
    (∀ v ∈ obsVersions st es, st.src.version ≤ v) ∧
    List.Chain' (· ≤ ·) (obsVersions st es) := by
  induction es with
  | nil =>
    intro st _ _ _
    simp [obsVersions]
  | cons e es ih =>
    intro st hrel hnol hW
    have hnol' : REv.loadR ∉ es := fun hmem => hnol (List.mem_cons_of_mem _ hmem)
    cases e with
    | load =>
      have hrel' : (rstep st REv.load).slot.to_release = false := by
        rw [show (rstep st REv.load).slot = localLoadSlot st.src st.slot from rfl,
          localLoadSlot_release]
        exact hrel
      have hW' : (rstep st REv.load).src.version + pubCount es < W := by
        rw [pubCount_cons_load] at hW
        exact hW
      have hIH := ih (rstep st REv.load) hrel' hnol' hW'
      by_cases h0 : st.slot.ref_count = 0
      · have hobs : obsVersions st (REv.load :: es) =
            (rstep st REv.load).slot.version :: obsVersions (rstep st REv.load) es := by
          simp [obsVersions, h0]
        have hver : (rstep st REv.load).slot.version = st.src.version := by
          rw [show (rstep st REv.load).slot = localLoadSlot st.src st.slot from rfl,
            localLoad_outermost_version _ _ h0]
        constructor
        · intro v hv
          rw [hobs] at hv
          rcases List.mem_cons.mp hv with hv | hv
          · rw [hv, hver]
          · exact hIH.1 v hv
        · rw [hobs, List.chain'_cons']
          refine ⟨?_, hIH.2⟩
          intro y hy
          rw [hver]
          exact hIH.1 y (List.mem_of_mem_head? hy)
      · have hobs : obsVersions st (REv.load :: es) =
            obsVersions (rstep st REv.load) es := by
          simp [obsVersions, h0]
        rw [hobs]
        exact hIH
    | loadR =>
      exact absurd (List.mem_cons_self _ _) hnol
    | unload =>
      have hrel' : (rstep st REv.unload).slot.to_release = false := by
        rw [show (rstep st REv.unload).slot = guardDtor st.slot from rfl]
        exact guardDtor_release st.slot hrel
      have hW' : (rstep st REv.unload).src.version + pubCount es < W := by
        rw [pubCount_cons_unload] at hW
        exact hW
      have hIH := ih (rstep st REv.unload) hrel' hnol' hW'
      have hobs : obsVersions st (REv.unload :: es) =
          obsVersions (rstep st REv.unload) es := by
        simp [obsVersions]
      rw [hobs]
      exact hIH
    | publish h =>
      rw [pubCount_cons_publish] at hW
      have hlt : st.src.version + 1 < W := by omega
      have hver : (rstep st (REv.publish h)).src.version = st.src.version + 1 := by
        rw [show (rstep st (REv.publish h)).src = (sourceUpdate false h st.src).1 from rfl]
        exact Nat.mod_eq_of_lt hlt
      have hW' : (rstep st (REv.publish h)).src.version + pubCount es < W := by
        rw [hver]
        omega
      have hIH := ih (rstep st (REv.publish h)) hrel hnol' hW'
      have hobs : obsVersions st (REv.publish h :: es) =
          obsVersions (rstep st (REv.publish h)) es := by
        simp [obsVersions]
      rw [hobs]
      refine ⟨?_, hIH.2⟩
      intro v hv
      have := hIH.1 v hv
      rw [hver] at this
      omega

/-- CLAIM C2 (amended): a publish advances the version counter by exactly
one modulo `2^64`, which is a strict increase whenever the counter has not
reached `2^64 - 1`; and along any trace of plain loads, unloads and
publishes in which fewer than `2^64` publishes occur in total (counted from
the current source version), the versions a thread observes through
repeated loads across disjoint guard scopes are non-decreasing. -/
theorem c2_version_monotonic :
    (∀ (r : Bool) (h : Option Nat) (s : Src),
      (sourceUpdate r h s).1.version = (s.version + 1) % W ∧
      (s.version + 1 < W → s.version < (sourceUpdate r h s).1.version)) ∧
    (∀ (st : RState) (es : List REv), st.slot.to_release = false →
      REv.loadR ∉ es → st.src.version + pubCount es < W →
      List.Chain' (· ≤ ·) (obsVersions st es)) := by
  constructor
  · intro r h s
    refine ⟨rfl, fun hlt => ?_⟩
    rw [show (sourceUpdate r h s).1.version = (s.version + 1) % W from rfl,
      Nat.mod_eq_of_lt hlt]
    omega
  · intro st es hrel hnol hW
    exact (obs_bounded_chain es st hrel hnol hW).2

/-- Witness for C2 (amended): a concrete publish strictly increases the
version, and a concrete two-scope trace observes versions in order. -/
theorem c2_version_monotonic_witness :
    (sourceUpdate false (some 3) ⟨none, 5⟩).1.version = (5 + 1) % W ∧
    5 < (sourceUpdate false (some 3) ⟨none, 5⟩).1.version ∧
    List.Chain' (· ≤ ·) (obsVersions ⟨⟨some 0, 0⟩, defaultTls⟩
      [REv.load, REv.unload, REv.publish (some 1), REv.load]) :=
  ⟨(c2_version_monotonic.1 false (some 3) ⟨none, 5⟩).1,
   (c2_version_monotonic.1 false (some 3) ⟨none, 5⟩).2 (by norm_num [W]),
   c2_version_monotonic.2 ⟨⟨some 0, 0⟩, defaultTls⟩
     [REv.load, REv.unload, REv.publish (some 1), REv.load] rfl (by decide)
     (by norm_num [pubCount, List.filter, W])⟩

/-- CLAIM C2 as stated is false in the wraparound case: after `2^64 - 1`
publishes the 64-bit version counter holds `2^64 - 1`, and one further
publish (`fetch_add(1)` on `uint64_t`) wraps it to 0 — that publish
decreases the version. -/
theorem c2_counterexample :
    (sourceUpdate false (some 1)
        (rrun ⟨⟨none, 0⟩, defaultTls⟩
          (List.replicate (W - 1) (REv.publish (some 1)))).src).1.version <
      (rrun ⟨⟨none, 0⟩, defaultTls⟩
        (List.replicate (W - 1) (REv.publish (some 1)))).src.version := by
  have h2 : W - 1 = (W - 2) + 1 := by norm_num [W]
  rw [h2, rrun_replicate_publish]
  have h4 : (0 + ((W - 2) + 1)) % W = W - 1 := by
    have h5 : 0 + ((W - 2) + 1) = W - 1 := by norm_num [W]
    rw [h5]
    exact Nat.mod_eq_of_lt (by norm_num [W])
  show ((0 + ((W - 2) + 1)) % W + 1) % W < (0 + ((W - 2) + 1)) % W
  rw [h4]
  have h6 : (W - 1 + 1) = W := by norm_num [W]
  rw [h6, Nat.mod_self]
  norm_num [W]

/-- CLAIM C9: for a pack of 3 guards the construction events run in index
order and the destructor events in reverse order (this part of the claim
holds); but the claimed exception behavior fails: `construct_guards`
contains no exception handler (and `guard<T>`'s move constructor is
`noexcept`), so when the move construction of the 2nd guard (index 1)
fails, the event trace is just `[ctor 0]` — no guard is destroyed before
the failure propagates, whereas the claim requires the first guard to be
destroyed.  This contradicts the code's own documentation
(src/unnamed/part_012 lines 262-264 and 414-415), which promises
reverse-order destruction of the already-constructed guards on exception. -/
theorem c9_pack_lifo :
    (constructGuards (fun _ => false) 0 3).1 ++ destroyGuards 2 =
      [PEv.ctor 0, PEv.ctor 1, PEv.ctor 2, PEv.dtor 2, PEv.dtor 1, PEv.dtor 0] ∧
    constructGuards (fun i => i == 1) 0 3 = ([PEv.ctor 0], false) := by
  decide

/-- The instance-key allocator is a 64-bit counter: after `n` fetch_adds it
holds `n` modulo `2^64`. -/
theorem counterAfter_eq (n : Nat) : counterAfter n = n % W := by
  induction n with
  | zero => rfl
  | succ n ih =>
    rw [counterAfter, ih, Nat.mod_add_mod]

/-- CLAIM C10 (amended): slot keys start at 1 and equal the instance number
for the first `2^64 - 1` instances; any two distinct instances among the
first `2^64` get distinct keys (instance `2^64` receives key 0), so within
that range a newly created cell/local can never share a key with — and so
never observe stale cached state of — any earlier instance, its first slot
lookup yielding the default-initialized record; keys repeat only after the
64-bit allocator wraps. -/
theorem c10_slot_keys :
    selfKey 1 = 1 ∧
    (∀ i, 1 ≤ i → i ≤ W - 1 → selfKey i = i) ∧
    (∀ i j, 1 ≤ i → i < j → j ≤ W → selfKey i ≠ selfKey j) ∧
    (∀ (m : List (Nat × Slot)) (k : Nat),
      (∀ p ∈ m, p.1 ≠ k) → tlsRef m k = defaultTls) := by
  have hW2 : 2 ≤ W := by norm_num [W]
  have hkey : ∀ i, 1 ≤ i → i ≤ W - 1 → selfKey i = i := by
    intro i h1 h2
    rw [selfKey, counterAfter_eq]
    rw [Nat.mod_eq_of_lt (show i - 1 < W by omega)]
    rw [show i - 1 + 1 = i by omega]
    exact Nat.mod_eq_of_lt (by omega)
  have hkeyW : selfKey W = 0 := by
    rw [selfKey, counterAfter_eq]
    rw [Nat.mod_eq_of_lt (show W - 1 < W by omega)]
    rw [show W - 1 + 1 = W by omega, Nat.mod_self]
  refine ⟨hkey 1 (le_refl 1) (by omega), hkey, ?_, ?_⟩
  · intro i j h1 hij hjW
    by_cases hj : j ≤ W - 1
    · rw [hkey i h1 (by omega), hkey j (by omega) hj]
      omega
    · rw [show j = W by omega, hkeyW, hkey i h1 (by omega)]
      omega
  · intro m k
    induction m with
    | nil =>
      intro _
      rfl
    | cons p m ih =>
      intro hk
      have hpb : ¬ ((fun q : Nat × Slot => q.1 == k) p = true) := by
        simpa using hk p (List.mem_cons_self _ _)
      have ih2 := ih fun q hq => hk q (List.mem_cons_of_mem _ hq)
      rw [tlsRef, @List.find?_cons_of_neg (Nat × Slot) (fun q => q.1 == k) p m hpb]
      exact ih2

/-- Witness for C10 (amended): the first two instances get keys 1 and 2,
those keys differ, and a lookup of an unwritten key yields the default
slot. -/
theorem c10_slot_keys_witness :
    selfKey 1 = 1 ∧ selfKey 2 = 2 ∧ selfKey 1 ≠ selfKey 2 ∧
    tlsRef [(1, defaultTls)] 2 = defaultTls :=
  ⟨c10_slot_keys.1,
   c10_slot_keys.2.1 2 (by norm_num) (by norm_num [W]),
   c10_slot_keys.2.2.1 1 2 (by norm_num) (by norm_num) (by norm_num [W]),
   c10_slot_keys.2.2.2 [(1, defaultTls)] 2 (by decide)⟩

/-- CLAIM C10 as stated is false in the wraparound case: the key allocator
is a 64-bit counter, so instance number `2^64 + 1` receives the same slot
key (1) as instance number 1 — the key IS eventually reused. -/
theorem c10_counterexample :
    selfKey (W + 1) = selfKey 1 ∧ W + 1 ≠ 1 := by
  constructor
  · rw [selfKey, selfKey, counterAfter_eq, counterAfter_eq]
    rw [show W + 1 - 1 = W by omega, Nat.mod_self]
    norm_num
  · norm_num [W]

/-- Witness for C8 (amended): concrete pushes and a concrete scan. -/
theorem c8_reclaimer_queue_witness :
    rtPush ⟨[5], true, 1⟩ none = ⟨[5], true, 1⟩ ∧
    rtPush ⟨[5], true, 1⟩ (some 5) = ⟨[5], true, 1⟩ ∧
    rtPush ⟨[5], false, 1⟩ (some 6) = ⟨[5, 6], true, 2⟩ ∧
    rtPush ⟨[5], true, 1⟩ (some 6) = ⟨[5, 6], true, 1⟩ ∧
    (rtScan (fun o => if o = 5 then 1 else 3) ⟨[5, 6], false, 0⟩).2 = [5] ∧
    (rtScan (fun o => if o = 5 then 1 else 3) ⟨[5, 6], false, 0⟩).1.ptrs = [6] := by
  refine ⟨c8_reclaimer_queue.1 ⟨[5], true, 1⟩,
    c8_reclaimer_queue.2.1 ⟨[5], true, 1⟩ 5 (by decide),
    c8_reclaimer_queue.2.2.1 ⟨[5], false, 1⟩ 6 (by decide) rfl,
    c8_reclaimer_queue.2.2.2.1 ⟨[5], true, 1⟩ 6 (by decide) rfl, ?_, ?_⟩
  · have h := (c8_reclaimer_queue.2.2.2.2 (fun o => if o = 5 then 1 else 3)
      ⟨[5, 6], false, 0⟩ (by decide)).1
    rw [h]; decide
  · have h := (c8_reclaimer_queue.2.2.2.2 (fun o => if o = 5 then 1 else 3)
      ⟨[5, 6], false, 0⟩ (by decide)).2
    rw [h]; decide

/-- Replacing the thread at index `t` shifts the done-count by the change
of its indicator. -/
theorem pubDone_set (l : List PThread) : ∀ (t : Nat) (th th' : PThread),
    l[t]? = some th →
    pubDone (l.set t th') + (if 3 ≤ th.pc then 1 else 0) =
      pubDone l + (if 3 ≤ th'.pc then 1 else 0) := by
  induction l with
  | nil =>
    intro t th th' h
    simp at h
  | cons a l ih =>
    intro t th th' h
    cases t with
    | zero =>
      rw [List.getElem?_cons_zero, Option.some_inj] at h
      subst h
      simp only [List.set_cons_zero, pubDone, List.countP_cons]
      by_cases h3 : 3 ≤ a.pc <;> by_cases h4 : 3 ≤ th'.pc <;>
        simp [h3, h4]
    | succ t =>
      rw [List.getElem?_cons_succ] at h
      have hrec := ih t th th' h
      simp only [List.set_cons_succ, pubDone, List.countP_cons] at hrec ⊢
      omega

/-- Replacing the thread at index `t` by one with the same argument leaves
the list of published arguments unchanged. -/
theorem mapArg_set (l : List PThread) : ∀ (t : Nat) (th th' : PThread),
    l[t]? = some th → th'.arg = th.arg →
    (l.set t th').map PThread.arg = l.map PThread.arg := by
  induction l with
  | nil =>
    intro t th th' h _
    simp at h
  | cons a l ih =>
    intro t th th' h harg
    cases t with
    | zero =>
      rw [List.getElem?_cons_zero, Option.some_inj] at h
      subst h
      simp [List.set_cons_zero, harg]
    | succ t =>
      rw [List.getElem?_cons_succ] at h
      simp [List.set_cons_succ, ih t th th' h harg]

/-- One publisher step preserves the version accounting: the source version
always equals the initial version plus the number of executed fetch_adds,
modulo `2^64`. -/
theorem pstep_version (s : PState) (t : Nat) (v0 : Nat)
    (hv : s.version = (v0 + pubDone s.threads) % W) :
    (pstep s t).version = (v0 + pubDone (pstep s t).threads) % W := by
  unfold pstep
  split
  · exact hv
  · rename_i th hth
    split
    · rename_i hpc
      have h1 := pubDone_set s.threads t th { th with old := s.value, pc := 1 } hth
      rw [hpc] at h1
      simp at h1
      simpa [h1] using hv
    · rename_i hpc
      have h1 := pubDone_set s.threads t th { th with pc := 2 } hth
      rw [hpc] at h1
      simp at h1
      simpa [h1] using hv
    · rename_i hpc
      have h1 := pubDone_set s.threads t th { th with pc := 3 } hth
      rw [hpc] at h1
      simp at h1
      show (s.version + 1) % W =
        (v0 + pubDone (s.threads.set t { th with pc := 3 })) % W
      rw [h1, hv, Nat.mod_add_mod,
        show v0 + pubDone s.threads + 1 = v0 + (pubDone s.threads + 1) by omega]
    · rename_i hpc
      have h1 := pubDone_set s.threads t th { th with pc := 4 } hth
      rw [hpc] at h1
      simp at h1
      simpa [h1] using hv
    · exact hv

/-- The version accounting holds along any schedule. -/
theorem prun_version (sched : List Nat) : ∀ (s : PState) (v0 : Nat),
    s.version = (v0 + pubDone s.threads) % W →
    (prun s sched).version = (v0 + pubDone (prun s sched).threads) % W := by
  induction sched with
  | nil =>
    intro s v0 h
    exact h
  | cons t sched ih =>
    intro s v0 h
    exact ih (pstep s t) v0 (pstep_version s t v0 h)

/-- One publisher step preserves the stored-value invariant. -/
theorem pstep_stored (v0 : Option Nat) (s : PState) (t : Nat)
    (h : storedInv v0 s) : storedInv v0 (pstep s t) := by
  unfold storedInv at h ⊢
  unfold pstep
  split
  · exact h
  · rename_i th hth
    have hlen : t < s.threads.length := (List.getElem?_eq_some.mp hth).1
    split
    · rename_i hpc
      rcases h with ⟨j, tj, hj, hpcj, hval⟩ | ⟨hval, hall⟩
      · left
        have hjt : t ≠ j := by
          intro he
          subst he
          rw [hj] at hth
          rw [Option.some_inj] at hth
          subst hth
          omega
        exact ⟨j, tj, by rw [List.getElem?_set_ne hjt]; exact hj, hpcj, hval⟩
      · right
        refine ⟨hval, fun x hx => ?_⟩
        rcases List.mem_or_eq_of_mem_set hx with hx | hx
        · exact hall x hx
        · subst hx
          simp
    · rename_i hpc
      left
      refine ⟨t, { th with pc := 2 }, ?_, by simp, by simp⟩
      simp [List.getElem?_set_self, hlen]
    · rename_i hpc
      rcases h with ⟨j, tj, hj, hpcj, hval⟩ | ⟨hval, hall⟩
      · left
        by_cases hjt : j = t
        · subst hjt
          rw [hj] at hth
          rw [Option.some_inj] at hth
          subst hth
          refine ⟨j, { tj with pc := 3 }, ?_, by simp, by simpa using hval⟩
          simp [List.getElem?_set_self, hlen]
        · exact ⟨j, tj,
            by rw [List.getElem?_set_ne (Ne.symm hjt)]; exact hj, hpcj, hval⟩
      · exfalso
        have := hall th (List.getElem?_mem hth)
        omega
    · rename_i hpc
      rcases h with ⟨j, tj, hj, hpcj, hval⟩ | ⟨hval, hall⟩
      · left
        by_cases hjt : j = t
        · subst hjt
          rw [hj] at hth
          rw [Option.some_inj] at hth
          subst hth
          refine ⟨j, { tj with pc := 4 }, ?_, by simp, by simpa using hval⟩
          simp [List.getElem?_set_self, hlen]
        · exact ⟨j, tj,
            by rw [List.getElem?_set_ne (Ne.symm hjt)]; exact hj, hpcj, hval⟩
      · exfalso
        have := hall th (List.getElem?_mem hth)
        omega
    · exact h

/-- The stored-value invariant holds along any schedule. -/
theorem prun_stored (sched : List Nat) : ∀ (v0 : Option Nat) (s : PState),
    storedInv v0 s → storedInv v0 (prun s sched) := by
  induction sched with
  | nil =>
    intro v0 s h
    exact h
  | cons t sched ih =>
    intro v0 s h
    exact ih v0 (pstep s t) (pstep_stored v0 s t h)

/-- Publisher steps never change the list of published arguments. -/
theorem pstep_args (s : PState) (t : Nat) :
    (pstep s t).threads.map PThread.arg = s.threads.map PThread.arg := by
  unfold pstep
  split
  · rfl
  · rename_i th hth
    split
    · exact mapArg_set s.threads t th _ hth rfl
    · exact mapArg_set s.threads t th _ hth rfl
    · exact mapArg_set s.threads t th _ hth rfl
    · exact mapArg_set s.threads t th _ hth rfl
    · rfl

/-- The list of published arguments is invariant along any schedule. -/
theorem prun_args (sched : List Nat) : ∀ s : PState,
    (prun s sched).threads.map PThread.arg = s.threads.map PThread.arg := by
  induction sched with
  | nil =>
    intro s
    rfl
  | cons t sched ih =>
    intro s
    rw [show prun s (t :: sched) = prun (pstep s t) sched from rfl, ih, pstep_args]

/-- Publisher steps preserve the number of threads. -/
theorem pstep_length (s : PState) (t : Nat) :
    (pstep s t).threads.length = s.threads.length := by
  unfold pstep
  split
  · rfl
  · split <;> simp

/-- The number of threads is invariant along any schedule. -/
theorem prun_length (sched : List Nat) : ∀ s : PState,
    (prun s sched).threads.length = s.threads.length := by
  induction sched with
  | nil =>
    intro s
    rfl
  | cons t sched ih =>
    intro s
    rw [show prun s (t :: sched) = prun (pstep s t) sched from rfl, ih, pstep_length]

/-- CLAIM C5 (amended): `source::update` takes no lock (the `spin_lock`
class in src/cppurcu/source.h is not used by `update`), so the bodies of
concurrent publishes may interleave; still, each publish bumps the version
counter atomically exactly once, so for any complete schedule of N
publisher threads the final version is the start version plus N modulo
`2^64`, and (for N at least one) the final value handle is one of the N
published handles. -/
theorem c5_publish_outcome (v0 : Option Nat) (vv : Nat)
    (args : List (Option Nat)) (sched : List Nat) (hvv : vv < W)
    (hdone : ∀ th ∈ (prun (pubInit v0 vv args) sched).threads, th.pc = 4) :
    (prun (pubInit v0 vv args) sched).version = (vv + args.length) % W ∧
    (args ≠ [] → (prun (pubInit v0 vv args) sched).value ∈ args) := by
  have hinit0 : pubDone (pubInit v0 vv args).threads = 0 := by
    rw [pubDone, List.countP_eq_zero]
    intro th hth
    rcases List.mem_map.mp hth with ⟨a, _, ha⟩
    subst ha
    simp
  have hinitv : (pubInit v0 vv args).version = (vv + pubDone (pubInit v0 vv args).threads) % W := by
    rw [hinit0, Nat.add_zero]
    exact (Nat.mod_eq_of_lt hvv).symm
  have hfinal := prun_version sched (pubInit v0 vv args) vv hinitv
  have hlen : (prun (pubInit v0 vv args) sched).threads.length = args.length := by
    rw [prun_length]
    simp [pubInit]
  constructor
  · rw [hfinal]
    have hcnt : pubDone (prun (pubInit v0 vv args) sched).threads =
        (prun (pubInit v0 vv args) sched).threads.length := by
      rw [pubDone, List.countP_eq_length]
      intro th hth
      have := hdone th hth
      simp [this]
    rw [hcnt, hlen]
  · intro hne
    have hinv : storedInv v0 (pubInit v0 vv args) := by
      unfold storedInv
      right
      refine ⟨rfl, fun th hth => ?_⟩
      rcases List.mem_map.mp hth with ⟨a, _, ha⟩
      subst ha
      simp
    have hfin := prun_stored sched v0 (pubInit v0 vv args) hinv
    unfold storedInv at hfin
    rcases hfin with ⟨j, tj, hj, _, hval⟩ | ⟨_, hall⟩
    · have hmem : tj ∈ (prun (pubInit v0 vv args) sched).threads :=
        List.getElem?_mem hj
      have hargmem : tj.arg ∈ (prun (pubInit v0 vv args) sched).threads.map PThread.arg :=
        List.mem_map_of_mem _ hmem
      rw [prun_args] at hargmem
      have hargs : (pubInit v0 vv args).threads.map PThread.arg = args := by
        simp only [pubInit, List.map_map]
        rw [show (PThread.arg ∘ fun a => PThread.mk a 0 none) = id from rfl, List.map_id]
      rw [hargs] at hargmem
      rw [hval]
      exact hargmem
    · exfalso
      have hpos : 0 < (prun (pubInit v0 vv args) sched).threads.length := by
        rw [hlen]
        exact List.length_pos.mpr hne
      rcases List.exists_mem_of_length_pos hpos with ⟨th, hth⟩
      have h4 := hdone th hth
      have h1 := hall th hth
      omega

/-- Witness for C5 (amended): two publishers of handles 1 and 2 against a
source holding handle 0 at version 0, run to completion on a serial
schedule: the final version is 2 and the final value is one of the two
published handles. -/
theorem c5_publish_outcome_witness :
    (prun (pubInit (some 0) 0 [some 1, some 2]) [0, 0, 0, 0, 1, 1, 1, 1]).version =
      (0 + 2) % W ∧
    (prun (pubInit (some 0) 0 [some 1, some 2]) [0, 0, 0, 0, 1, 1, 1, 1]).value ∈
      [some 1, some 2] := by
  have h := c5_publish_outcome (some 0) 0 [some 1, some 2] [0, 0, 0, 0, 1, 1, 1, 1]
    (by norm_num [W]) (by decide)
  exact ⟨h.1, h.2 (by decide)⟩

/-- CLAIM C5 as stated is false: publishes do not mutually exclude — there
is no lock in `source::update` — and a complete interleaved execution of
two publishes can produce an outcome that matches neither serial order.
With handles 1 and 2 published over initial handle 0, the schedule in which
both threads load `old` before either stores makes both hand handle 0 to
the reclaimer: the retirement sequence is `[0, 0]`, handle 1 is never
retired, while the two serial orders retire `[0, 1]` and `[0, 2]`
respectively.  (The version still ends at start + 2, and both executions
are complete.) -/
theorem c5_counterexample :
    (∀ th ∈ (prun (pubInit (some 0) 0 [some 1, some 2])
        [0, 1, 0, 0, 0, 1, 1, 1]).threads, th.pc = 4) ∧
    (prun (pubInit (some 0) 0 [some 1, some 2])
        [0, 1, 0, 0, 0, 1, 1, 1]).retired = [some 0, some 0] ∧
    (prun (pubInit (some 0) 0 [some 1, some 2])
        [0, 1, 0, 0, 0, 1, 1, 1]).retired ≠
      (prun (pubInit (some 0) 0 [some 1, some 2])
        [0, 0, 0, 0, 1, 1, 1, 1]).retired ∧
    (prun (pubInit (some 0) 0 [some 1, some 2])
        [0, 1, 0, 0, 0, 1, 1, 1]).retired ≠
      (prun (pubInit (some 0) 0 [some 1, some 2])
        [1, 1, 1, 1, 0, 0, 0, 0]).retired := by
  decide

end Cppurcu
